import Mathlib

/-
  Verification development for the campaign-manager worker services.

  Shallow embedding of:
  - src/python-worker/utils.py        (parse_campaign_message)
  - src/python-worker/consumer.py     (process_campaign_message, delegate_to_generator,
                                       extract_campaign_id_from_error)
  - src/python-worker/producer.py     (send_result, abstracted as a publish oracle)
  - src/python-worker/main.py         (CampaignWorker.connect_rabbitmq)
  - src/python-generator/exponential_backoff.py (RetryOptions, ExponentialBackoff.execute,
                                       ExponentialBackoff._calculate_delay)

  Machine reals (Python floats) are modelled as rationals; Python int() truncation is
  modelled explicitly.  External effects (the broker dial, the downstream HTTP call, the
  publish to the result queue, the jitter random source) are modelled as explicit oracles
  passed to the embedded functions, and each embedded function returns a trace of the
  observable events the claims speak about (attempt counts, delays, acknowledgement,
  envelopes attempted and published).
-/

namespace CampaignManager

/-- JSON values as produced by Python's json.loads (numbers restricted to integers,
which suffices for every claim). -/
inductive Json : Type where
  | null : Json
  | bool (b : Bool) : Json
  | num (n : Int) : Json
  | str (s : String) : Json
  | arr (elems : List Json) : Json
  | obj (fields : List (String × Json)) : Json

/-- First-match lookup in a Python dict modelled as an association list. -/
def dictFind (fields : List (String × Json)) (k : String) : Option Json :=
  match fields with
  | [] => none
  | (k', v) :: rest => if k' = k then some v else dictFind rest k

/-- isinstance(data, dict). -/
def Json.isDict : Json → Bool
  | .obj _ => true
  | _ => false

/-- isinstance(data, list). -/
def Json.isList : Json → Bool
  | .arr _ => true
  | _ => false

/-- Python len() on a list or a dict. -/
def Json.pyLen : Json → Nat
  | .arr elems => elems.length
  | .obj fields => fields.length
  | _ => 0

/-- Dict lookup returning an Option: some v when the value is a dict holding the key. -/
def Json.get? : Json → String → Option Json
  | .obj fields, k => dictFind fields k
  | _, _ => none

/-- Python `k in data` for a dict (false on any non-dict, which is how every guarded
use in the source behaves). -/
def Json.hasKey (j : Json) (k : String) : Bool :=
  (j.get? k).isSome

/-- The Python exception kinds distinguished by the worker's message handling. -/
inductive PyErr : Type where
  | valueError (msg : String) : PyErr
  | keyError (key : String) : PyErr
  | typeError (msg : String) : PyErr
  | indexError : PyErr
  | jsonDecodeError : PyErr
  | unicodeDecodeError : PyErr
deriving DecidableEq

/-- str(e) for the exceptions above, used when an error message is embedded in an
error envelope. -/
def PyErr.toMessage : PyErr → String
  | .valueError msg => msg
  | .keyError key => key
  | .typeError msg => msg
  | .indexError => "list index out of range"
  | .jsonDecodeError => "Expecting value"
  | .unicodeDecodeError => "utf-8 codec cannot decode"

/-- Python `data[k]` for a string key: KeyError on a dict missing the key, TypeError
on a non-dict. -/
def Json.item : Json → String → Except PyErr Json
  | .obj fields, k =>
    match dictFind fields k with
    | some v => .ok v
    | none => .error (.keyError k)
  | _, _ => .error (.typeError "subscript with str key on non-dict")

/-- Python `data[0]` on a list: IndexError when empty, TypeError on a non-list.  (Only
reachable through dead code in the source; kept for faithfulness.) -/
def Json.itemIdx : Json → Nat → Except PyErr Json
  | .arr elems, i =>
    match elems.get? i with
    | some v => .ok v
    | none => .error .indexError
  | _, _ => .error (.typeError "subscript with int key on non-list")

/-- Embedding of parse_campaign_message (src/python-worker/utils.py, lines 12-33)
after json.loads has produced a value.  Mirrors the source branch for branch,
including the unreachable isinstance(data, list) disjunct nested under the
isinstance(data, dict) test. -/
def parseLoadedMessage (data : Json) : Except PyErr (Json × Json) :=
  if data.isDict then
    if data.hasKey "campaignId" && data.hasKey "prompt" then do
      let campaign_id ← data.item "campaignId"
      let prompt ← data.item "prompt"
      .ok (campaign_id, prompt)
    else if (data.get? "data").elim false Json.isDict then do
      let campaign_data ← data.item "data"
      let campaign_id ← campaign_data.item "campaignId"
      let prompt ← campaign_data.item "prompt"
      .ok (campaign_id, prompt)
    else if data.hasKey "0" || (data.isList && decide (0 < data.pyLen)) then do
      let campaign_data ← if data.isList then data.itemIdx 0 else data.item "0"
      let campaign_id ← campaign_data.item "campaignId"
      let prompt ← campaign_data.item "prompt"
      .ok (campaign_id, prompt)
    else
      .error (.valueError "Unrecognized message format")
  else
    .error (.valueError "Expected dict")

/-- The raw AMQP message body, abstracted to the three cases the handler's decoding
pipeline distinguishes: bytes that are not valid UTF-8 (decode() raises), a decoded
string that is not valid JSON (json.loads raises), and a decoded string whose JSON
value is j. -/
inductive RawBody : Type where
  | invalidUtf8 : RawBody
  | notJson : RawBody
  | jsonOf (j : Json) : RawBody

/-- Whether message.body.decode() succeeds. -/
def RawBody.decodes : RawBody → Bool
  | .invalidUtf8 => false
  | _ => true

/-- json.loads on a decoded body (the invalidUtf8 case never reaches json.loads in
the source; it is mapped to its decode error so the embedding is total). -/
def json_loads : RawBody → Except PyErr Json
  | .invalidUtf8 => .error .unicodeDecodeError
  | .notJson => .error .jsonDecodeError
  | .jsonOf j => .ok j

/-- Embedding of parse_campaign_message (src/python-worker/utils.py) from the raw
body: json.loads, then the shape dispatch. -/
def parse_campaign_message (raw : RawBody) : Except PyErr (Json × Json) := do
  let data ← json_loads raw
  parseLoadedMessage data

/-- Embedding of extract_campaign_id_from_error (src/python-worker/consumer.py,
lines 86-110): best-effort recovery of the campaignId, falling back to "unknown".
The source's isinstance(data, dict) guard and membership tests collapse to Json.get?,
which is none exactly on a non-dict or a missing key. -/
def extract_campaign_id_from_error (raw : RawBody) : Json :=
  match json_loads raw with
  | .error _ => .str "unknown"
  | .ok data =>
    match data.get? "campaignId" with
    | some v => v
    | none =>
      match (data.get? "data").bind (fun d => if d.isDict then d.get? "campaignId" else none) with
      | some v => v
      | none =>
        match (data.get? "0").bind (fun d => if d.isDict then d.get? "campaignId" else none) with
        | some v => v
        | none => .str "unknown"

/-- A result envelope as the worker constructs it: campaignId, generatedText and
imagePath are JSON values taken either from the downstream response or set to the
empty string, and error is None or a message string. -/
structure Envelope : Type where
  campaignId : Json
  generatedText : Json
  imagePath : Json
  error : Option String

/-- Embedding of delegate_to_generator (src/python-worker/consumer.py, lines 56-83).
The downstream HTTP call (make_http_request with its own retry policy) is abstracted
as the oracle gen, giving the final outcome of the call: the parsed JSON response, or
the message of the exception that ended the call.  On success the three fields are
read from the response dict (a missing key or non-dict response raises and is caught
by the function's own except branch); every failure is converted into an error
envelope carrying "Generation service error: " plus str(e). -/
def delegate_to_generator (gen : Json → Json → Except String Json)
    (campaign_id prompt : Json) : Envelope :=
  match (do
      let response ← gen campaign_id prompt
      let c ← (response.item "campaignId").mapError PyErr.toMessage
      let t ← (response.item "generatedText").mapError PyErr.toMessage
      let ip ← (response.item "imagePath").mapError PyErr.toMessage
      pure (c, t, ip) : Except String (Json × Json × Json)) with
  | .ok (c, t, ip) =>
      { campaignId := c, generatedText := t, imagePath := ip, error := none }
  | .error e =>
      { campaignId := campaign_id, generatedText := .str "", imagePath := .str "",
        error := some ("Generation service error: " ++ e) }

/-- What message.process() did when the handler finished: ack on a normal return,
explicit reject (requeue=False) when an exception escaped the handler body. -/
inductive AckOutcome : Type where
  | acked : AckOutcome
  | rejected : AckOutcome
deriving DecidableEq

/-- Observable trace of one run of the consumer handler: the acknowledgement
outcome, the exception escaping the handler if any, the envelopes handed to
send_result in order, and the envelopes whose publish succeeded. -/
structure HandlerTrace : Type where
  outcome : AckOutcome
  raised : Option PyErr
  attempted : List Envelope
  published : List Envelope

/-- Embedding of process_campaign_message (src/python-worker/consumer.py, lines
16-53).  send_result (producer.py, with its internal retry policy) is abstracted as
the oracle pub, indexed by the order of the send_result calls within this handler
run: pub n is the final outcome of the n-th call, .error m meaning the call raised
with str(e) = m after its retries.

Control flow mirrored from the source: on a body that decode() rejects, the first
decode raises UnicodeDecodeError, the except branch catches it, and the except
branch's own logging line calls message.body.decode() again, which raises out of the
handler; message.process() then rejects the message and re-raises.  On any decodable
body the handler returns normally: a parse or publish failure reaches the except
branch, which builds an error envelope from the best-effort campaignId and str(e)
and tries to publish it, swallowing a failure of that publish. -/
def process_campaign_message (raw : RawBody) (gen : Json → Json → Except String Json)
    (pub : Nat → Except String Unit) : HandlerTrace :=
  match raw with
  | .invalidUtf8 =>
      { outcome := .rejected, raised := some .unicodeDecodeError,
        attempted := [], published := [] }
  | _ =>
    match parse_campaign_message raw with
    | .ok (campaign_id, prompt) =>
        let result := delegate_to_generator gen campaign_id prompt
        match pub 0 with
        | .ok _ =>
            { outcome := .acked, raised := none,
              attempted := [result], published := [result] }
        | .error m =>
            let error_result : Envelope :=
              { campaignId := extract_campaign_id_from_error raw,
                generatedText := .str "", imagePath := .str "", error := some m }
            match pub 1 with
            | .ok _ =>
                { outcome := .acked, raised := none,
                  attempted := [result, error_result], published := [error_result] }
            | .error _ =>
                { outcome := .acked, raised := none,
                  attempted := [result, error_result], published := [] }
    | .error e =>
        let error_result : Envelope :=
          { campaignId := extract_campaign_id_from_error raw,
            generatedText := .str "", imagePath := .str "", error := some e.toMessage }
        match pub 0 with
        | .ok _ =>
            { outcome := .acked, raised := none,
              attempted := [error_result], published := [error_result] }
        | .error _ =>
            { outcome := .acked, raised := none,
              attempted := [error_result], published := [] }

/-- Embedding of RetryOptions (src/python-generator/exponential_backoff.py, lines
11-22).  Delays are milliseconds; the float fields are modelled as rationals.  The
field default for should_retry models __post_init__, which replaces an unsupplied
predicate by one that always returns True. -/
structure RetryOptions (E : Type) : Type where
  max_retries : Nat := 3
  initial_delay_ms : Int := 1000
  max_delay_ms : Int := 30000
  backoff_multiplier : ℚ := 2
  jitter_factor : ℚ := 1 / 10
  should_retry : E → Nat → Bool := fun _ _ => true

/-- Python int() on a float: truncation toward zero. -/
def pyInt (q : ℚ) : Int :=
  if 0 ≤ q then ⌊q⌋ else ⌈q⌉

/-- Embedding of ExponentialBackoff._calculate_delay (exponential_backoff.py, lines
72-80): base delay grows geometrically, jitter adds base × jitterFactor × random,
the sum is truncated by int() and capped at max_delay_ms.  r is the value returned
by random.random() for this call. -/
def calculate_delay {E : Type} (o : RetryOptions E) (attempt : Nat) (r : ℚ) : Int :=
  let base_delay : ℚ := (o.initial_delay_ms : ℚ) * o.backoff_multiplier ^ attempt
  let jitter : ℚ := base_delay * o.jitter_factor * r
  let delay_with_jitter : ℚ := base_delay + jitter
  min (pyInt delay_with_jitter) o.max_delay_ms

/-- Observable trace of one ExponentialBackoff.execute run: the propagated result,
how many times the operation ran, the delays slept (ms) in order, and each
(error, attempt) pair on which should_retry was consulted. -/
structure ExecTrace (E T : Type) : Type where
  result : Except E T
  attempts : Nat
  delays : List Int
  consulted : List (E × Nat)

/-- The loop of ExponentialBackoff.execute (exponential_backoff.py, lines 29-70),
running attempts `attempt, attempt+1, ...` with `left` further iterations allowed
after the current one (left = max_retries - attempt along real runs).  op i is the
outcome of the i-th invocation of the operation; rand i the random.random() value
used for the delay after attempt i.  left = 0 is the attempt == max_retries
iteration: a failure there is raised without consulting should_retry.  Otherwise a
failure consults should_retry; False raises immediately with no delay, True sleeps
calculate_delay and continues. -/
def executeFrom {E T : Type} (o : RetryOptions E) (op : Nat → Except E T)
    (rand : Nat → ℚ) : Nat → Nat → ExecTrace E T
  | attempt, 0 =>
      { result := op attempt, attempts := 1, delays := [], consulted := [] }
  | attempt, left + 1 =>
      match op attempt with
      | .ok v => { result := .ok v, attempts := 1, delays := [], consulted := [] }
      | .error e =>
          if o.should_retry e attempt then
            let rest := executeFrom o op rand (attempt + 1) left
            { result := rest.result, attempts := rest.attempts + 1,
              delays := calculate_delay o attempt (rand attempt) :: rest.delays,
              consulted := (e, attempt) :: rest.consulted }
          else
            { result := .error e, attempts := 1, delays := [],
              consulted := [(e, attempt)] }

/-- Embedding of ExponentialBackoff.execute: the loop starting at attempt 0 with
max_retries retries left. -/
def execute {E T : Type} (o : RetryOptions E) (op : Nat → Except E T)
    (rand : Nat → ℚ) : ExecTrace E T :=
  executeFrom o op rand 0 o.max_retries

/-- Observable trace of one CampaignWorker.connect_rabbitmq run: the propagated
result, the number of dial attempts, and the sleeps (seconds) between attempts. -/
structure ConnectTrace : Type where
  result : Except String Unit
  attempts : Nat
  delays : List Nat

/-- The loop of CampaignWorker.connect_rabbitmq (src/python-worker/main.py, lines
38-64), with `remaining` iterations of `for attempt in range(max_retries)` left.
dial i is the outcome of the i-th connect-and-declare-queues attempt.  Every
exception is caught; on the last iteration (attempt == max_retries - 1) it is
re-raised, otherwise the loop sleeps retry_delay seconds and retries.  With
max_retries = 0 the loop body never runs and the function returns normally. -/
def connectFrom (dial : Nat → Except String Unit) (retry_delay : Nat) :
    Nat → Nat → ConnectTrace
  | _, 0 => { result := .ok (), attempts := 0, delays := [] }
  | attempt, remaining + 1 =>
      match dial attempt with
      | .ok _ => { result := .ok (), attempts := 1, delays := [] }
      | .error e =>
          if remaining = 0 then
            { result := .error e, attempts := 1, delays := [] }
          else
            let rest := connectFrom dial retry_delay (attempt + 1) remaining
            { result := rest.result, attempts := rest.attempts + 1,
              delays := retry_delay :: rest.delays }

/-- Embedding of CampaignWorker.connect_rabbitmq: the loop from attempt 0.  The
source defaults are max_retries = 30, retry_delay = 2. -/
def connect_rabbitmq (dial : Nat → Except String Unit)
    (max_retries retry_delay : Nat) : ConnectTrace :=
  connectFrom dial retry_delay 0 max_retries

/-- Modelled from the spec (section 4.3, shape 1): a flat object carrying both
campaignId and prompt at top level, and the job it denotes.  Used only to state the
shape-priority claim against the source parser. -/
def specShape1 (j : Json) : Option (Json × Json) :=
  match j.get? "campaignId", j.get? "prompt" with
  | some c, some p => some (c, p)
  | _, _ => none

/-- Modelled from the spec (section 4.3, shape 2): a data key holding an object with
campaignId and prompt. -/
def specShape2 (j : Json) : Option (Json × Json) :=
  match j.get? "data" with
  | some d => if d.isDict then specShape1 d else none
  | none => none

/-- True exactly when parse raised its explicit ValueError, the spec's
MalformedMessage error (as opposed to a KeyError, TypeError or a json.loads
failure). -/
def isMalformed (r : Except PyErr (Json × Json)) : Bool :=
  match r with
  | .error (.valueError _) => true
  | _ => false

/-- The delays slept by the first i retries when the loop starts at attempt a and
every one of those attempts fails approved: one calculate_delay per attempt. -/
def prefixDelays {E : Type} (o : RetryOptions E) (rand : Nat → ℚ) : Nat → Nat → List Int
  | _, 0 => []
  | a, i + 1 => calculate_delay o a (rand a) :: prefixDelays o rand (a + 1) i

/-- The should_retry consultations recorded by the first i failing approved attempts
when the loop starts at attempt a. -/
def prefixConsults {E : Type} (ef : Nat → E) : Nat → Nat → List (E × Nat)
  | _, 0 => []
  | a, i + 1 => (ef a, a) :: prefixConsults ef (a + 1) i

/-- Concrete random source: random.random() always drawing 0. -/
def randZero : Nat → ℚ := fun _ => 0

/-- Concrete operation that fails on every attempt. -/
def failUU : Nat → Except Unit Unit := fun _ => .error ()

/-- Concrete operation failing on attempt 0 and succeeding from attempt 1 on. -/
def okAt1 : Nat → Except Unit Nat := fun i => if i = 0 then .error () else .ok 7

/-- Options whose predicate refuses every retry. -/
def optsNoRetry : RetryOptions Unit :=
  { max_retries := 1, should_retry := fun _ _ => false }

/-- Options with two retries and the default always-true predicate. -/
def optsAlways2 : RetryOptions Unit := { max_retries := 2 }

/-- Options exhibiting the int() truncation: base delay 3 × 1.5^attempt ms. -/
def optsTrunc : RetryOptions Unit :=
  { max_retries := 2, initial_delay_ms := 3, max_delay_ms := 30000,
    backoff_multiplier := 3 / 2, jitter_factor := 1 / 10 }

/-- Options whose predicate approves a retry only after attempt 0. -/
def optsConsult : RetryOptions Unit :=
  { max_retries := 2, should_retry := fun _ n => n == 0 }

/-- Broker dial refused for authentication reasons on every attempt. -/
def authDial : Nat → Except String Unit :=
  fun _ => .error "ACCESS_REFUSED - Login was refused using authentication mechanism PLAIN"

/-- Broker dial failing with an ordinary connection error on every attempt. -/
def plainDial : Nat → Except String Unit := fun _ => .error "connection refused"

/-- A flat-shape inbound body. -/
def flatBody : RawBody :=
  .jsonOf (.obj [("campaignId", .str "c1"), ("prompt", .str "p1")])

/-- Downstream call succeeding with a well-formed generator response. -/
def genOK : Json → Json → Except String Json :=
  fun _ _ => .ok (.obj [("campaignId", .str "c1"), ("generatedText", .str "t"),
    ("imagePath", .str "img")])

/-- Downstream call failing. -/
def genFail : Json → Json → Except String Json := fun _ _ => .error "downstream unavailable"

/-- Publish oracle: every send_result call succeeds. -/
def pubOK : Nat → Except String Unit := fun _ => .ok ()

/-- Publish oracle: every send_result call fails. -/
def pubFail : Nat → Except String Unit := fun _ => .error "publish failed"

/-- Publish oracle: the first send_result call fails, later ones succeed. -/
def pubFirstFails : Nat → Except String Unit :=
  fun n => if n = 0 then .error "publish failed" else .ok ()

/-- A payload matching both the flat shape and the enveloped shape, with different
values in each. -/
def multiShapeBody : Json :=
  .obj [("campaignId", .str "a"), ("prompt", .str "b"),
    ("data", .obj [("campaignId", .str "x"), ("prompt", .str "y")])]

/-- A payload matching only the enveloped shape. -/
def envShapeBody : Json :=
  .obj [("pattern", .str "campaign.generate"),
    ("data", .obj [("campaignId", .str "x"), ("prompt", .str "y")])]

theorem prefixDelays_length {E : Type} (o : RetryOptions E) (rand : Nat → ℚ) :
    ∀ (i a : Nat), (prefixDelays o rand a i).length = i := by
  intro i
  induction i with
  | zero => intro a; rfl
  | succ n ih => intro a; simp [prefixDelays, ih (a + 1)]

theorem prefixConsults_length {E : Type} (ef : Nat → E) :
    ∀ (i a : Nat), (prefixConsults ef a i).length = i := by
  intro i
  induction i with
  | zero => intro a; rfl
  | succ n ih => intro a; simp [prefixConsults, ih (a + 1)]

theorem prefixConsults_index_lt {E : Type} (ef : Nat → E) :
    ∀ (i a : Nat) (q : E × Nat), q ∈ prefixConsults ef a i → q.2 < a + i := by
  intro i
  induction i with
  | zero => intro a q hq; simp [prefixConsults] at hq
  | succ n ih =>
    intro a q hq
    rw [prefixConsults] at hq
    rcases List.mem_cons.mp hq with h | h
    · rw [h]; omega
    · have := ih (a + 1) q h
      omega

/-- A successful attempt ends the loop at once with that result and no further
events, whatever budget is left. -/
theorem executeFrom_ok {E T : Type} (o : RetryOptions E) (op : Nat → Except E T)
    (rand : Nat → ℚ) (attempt left : Nat) (v : T) (h : op attempt = .ok v) :
    executeFrom o op rand attempt left =
      { result := .ok v, attempts := 1, delays := [], consulted := [] } := by
  cases left with
  | zero => simp [executeFrom, h]
  | succ l => simp [executeFrom, h]

/-- Decomposition of the loop: if the first i attempts from position a fail with the
errors given by ef and should_retry approves each, the loop runs those i attempts,
sleeping and recording a consultation for each, and then continues as the loop
started at position a + i with i fewer iterations left. -/
theorem executeFrom_reach {E T : Type} (o : RetryOptions E) (op : Nat → Except E T)
    (rand : Nat → ℚ) (ef : Nat → E) :
    ∀ (i a left : Nat), i ≤ left →
    (∀ k, k < i → op (a + k) = .error (ef (a + k))) →
    (∀ k, k < i → o.should_retry (ef (a + k)) (a + k) = true) →
    executeFrom o op rand a left =
      { result := (executeFrom o op rand (a + i) (left - i)).result,
        attempts := i + (executeFrom o op rand (a + i) (left - i)).attempts,
        delays := prefixDelays o rand a i ++ (executeFrom o op rand (a + i) (left - i)).delays,
        consulted := prefixConsults ef a i
          ++ (executeFrom o op rand (a + i) (left - i)).consulted } := by
  intro i
  induction i with
  | zero =>
    intro a left _ _ _
    simp [prefixDelays, prefixConsults]
  | succ n ih =>
    intro a left hle hfail happ
    obtain ⟨l, rfl⟩ : ∃ l, left = l + 1 := ⟨left - 1, by omega⟩
    have h0 : op a = .error (ef a) := by
      have := hfail 0 (Nat.succ_pos n)
      simpa using this
    have hs0 : o.should_retry (ef a) a = true := by
      have := happ 0 (Nat.succ_pos n)
      simpa using this
    have hstep : executeFrom o op rand a (l + 1) =
        { result := (executeFrom o op rand (a + 1) l).result,
          attempts := (executeFrom o op rand (a + 1) l).attempts + 1,
          delays := calculate_delay o a (rand a) :: (executeFrom o op rand (a + 1) l).delays,
          consulted := (ef a, a) :: (executeFrom o op rand (a + 1) l).consulted } := by
      simp [executeFrom, h0, hs0]
    have ihs := ih (a + 1) l (by omega)
      (by intro k hk
          have h := hfail (k + 1) (by omega)
          have harith : a + (k + 1) = a + 1 + k := by omega
          rw [harith] at h
          exact h)
      (by intro k hk
          have h := happ (k + 1) (by omega)
          have harith : a + (k + 1) = a + 1 + k := by omega
          rw [harith] at h
          exact h)
    have hidx : a + (n + 1) = a + 1 + n := by omega
    have hsub : l + 1 - (n + 1) = l - n := by omega
    rw [hstep, ihs, hidx, hsub]
    have hat : (n + 1) + (executeFrom o op rand (a + 1 + n) (l - n)).attempts
        = (n + (executeFrom o op rand (a + 1 + n) (l - n)).attempts) + 1 := by omega
    rw [hat]
    simp only [prefixDelays, prefixConsults, List.cons_append]

/-- If the attempts before position a + i fail and are approved, and attempt a + i
succeeds with v, the loop returns v having run exactly i + 1 attempts. -/
theorem executeFrom_success {E T : Type} (o : RetryOptions E) (op : Nat → Except E T)
    (rand : Nat → ℚ) :
    ∀ (i a left : Nat) (v : T), i ≤ left →
    (∀ j, j < i → ∃ e, op (a + j) = .error e ∧ o.should_retry e (a + j) = true) →
    op (a + i) = .ok v →
    (executeFrom o op rand a left).result = .ok v ∧
    (executeFrom o op rand a left).attempts = i + 1 := by
  intro i
  induction i with
  | zero =>
    intro a left v _ _ hok
    rw [executeFrom_ok o op rand a left v (by simpa using hok)]
    exact ⟨rfl, rfl⟩
  | succ n ih =>
    intro a left v hle hfail hok
    obtain ⟨l, rfl⟩ : ∃ l, left = l + 1 := ⟨left - 1, by omega⟩
    obtain ⟨e, he, hs⟩ := hfail 0 (Nat.succ_pos n)
    simp only [Nat.add_zero] at he hs
    have ihs := ih (a + 1) l v (by omega)
      (by intro j hj
          obtain ⟨e', he', hs'⟩ := hfail (j + 1) (by omega)
          have harith : a + (j + 1) = a + 1 + j := by omega
          rw [harith] at he' hs'
          exact ⟨e', he', hs'⟩)
      (by have harith : a + 1 + n = a + (n + 1) := by omega
          rw [harith]; exact hok)
    constructor
    · simp [executeFrom, he, hs, ihs.1]
    · simp [executeFrom, he, hs, ihs.2]

/-- Every delay the loop sleeps is calculate_delay evaluated at the attempt it
follows, with the random draw of that attempt. -/
theorem executeFrom_delays_get {E T : Type} (o : RetryOptions E) (op : Nat → Except E T)
    (rand : Nat → ℚ) :
    ∀ (left a i : Nat) (d : Int),
    (executeFrom o op rand a left).delays.get? i = some d →
    d = calculate_delay o (a + i) (rand (a + i)) := by
  intro left
  induction left with
  | zero =>
    intro a i d hd
    simp [executeFrom] at hd
  | succ l ih =>
    intro a i d hd
    rcases hop : op a with e | v
    · simp only [executeFrom, hop] at hd
      split at hd
      · cases i with
        | zero =>
          simp only [List.get?_cons_zero, Option.some.injEq] at hd
          rw [← hd, Nat.add_zero]
        | succ n =>
          simp only [List.get?_cons_succ] at hd
          have h := ih (a + 1) n d hd
          have harith : a + 1 + n = a + (n + 1) := by omega
          rw [harith] at h
          exact h
      · simp at hd
    · simp only [executeFrom, hop] at hd
      simp at hd

/-- When every dial attempt fails, the connect loop performs all max_retries
attempts, sleeping retry_delay between consecutive ones, and propagates the error
of the last attempt. -/
theorem connectFrom_fail (dial : Nat → Except String Unit) (retry_delay : Nat)
    (ef : Nat → String) (hfail : ∀ i, dial i = .error (ef i)) :
    ∀ (rem a : Nat), 1 ≤ rem →
    (connectFrom dial retry_delay a rem).result = .error (ef (a + rem - 1)) ∧
    (connectFrom dial retry_delay a rem).attempts = rem ∧
    (connectFrom dial retry_delay a rem).delays = List.replicate (rem - 1) retry_delay := by
  intro rem
  induction rem with
  | zero => intro a h; exact (Nat.not_succ_le_zero 0 h).elim
  | succ r ih =>
    intro a _
    cases r with
    | zero =>
      refine ⟨?_, ?_, ?_⟩ <;> simp [connectFrom, hfail a]
    | succ r' =>
      obtain ⟨ih1, ih2, ih3⟩ := ih (a + 1) (Nat.succ_le_succ (Nat.zero_le r'))
      have hstep : connectFrom dial retry_delay a (r' + 1 + 1) =
          { result := (connectFrom dial retry_delay (a + 1) (r' + 1)).result,
            attempts := (connectFrom dial retry_delay (a + 1) (r' + 1)).attempts + 1,
            delays := retry_delay :: (connectFrom dial retry_delay (a + 1) (r' + 1)).delays } := by
        simp [connectFrom, hfail a]
      rw [hstep]
      refine ⟨?_, ?_, ?_⟩
      · show (connectFrom dial retry_delay (a + 1) (r' + 1)).result = _
        rw [ih1]
        have harith : a + 1 + (r' + 1) - 1 = a + (r' + 1 + 1) - 1 := by omega
        rw [harith]
      · show (connectFrom dial retry_delay (a + 1) (r' + 1)).attempts + 1 = _
        rw [ih2]
      · show retry_delay :: (connectFrom dial retry_delay (a + 1) (r' + 1)).delays = _
        rw [ih3]
        have harith : r' + 1 + 1 - 1 = (r' + 1 - 1) + 1 := by omega
        rw [harith, List.replicate_succ]

/-- Every envelope delegate_to_generator returns satisfies the error invariant:
when error is set, generatedText and imagePath are the empty string. -/
theorem delegate_envelope_invariant (gen : Json → Json → Except String Json)
    (campaign_id prompt : Json)
    (h : (delegate_to_generator gen campaign_id prompt).error ≠ none) :
    (delegate_to_generator gen campaign_id prompt).generatedText = .str "" ∧
    (delegate_to_generator gen campaign_id prompt).imagePath = .str "" := by
  unfold delegate_to_generator at *
  split at h
  · simp at h
  · exact ⟨rfl, rfl⟩

/-- Claim C1, counterexample: with a should_retry predicate that refuses retries,
an operation that fails on every attempt is run only once even though
maxRetries = 1; so "every RetryOptions ... runs the operation exactly n + 1 times"
is false as stated. -/
theorem execute_attempts_cut_by_predicate :
    (execute optsNoRetry failUU randZero).attempts = 1 ∧ (1 : Nat) ≠ 1 + 1 :=
  ⟨rfl, by decide⟩

/-- Claim C1 (amended): for every RetryOptions whose should_retry approves every
failure it is consulted on — as the unsupplied default does — and every operation:
if the operation fails on every attempt, execute runs it exactly maxRetries + 1
times and propagates the last attempt's failure; and if the attempts before i all
fail while attempt i (within budget) succeeds, execute returns that attempt's
result immediately, having performed exactly i + 1 attempts. -/
theorem execute_exhausts_and_returns_first_success {E T : Type}
    (o : RetryOptions E) (op : Nat → Except E T) (rand : Nat → ℚ)
    (hsr : ∀ e i, o.should_retry e i = true) :
    (∀ ef : Nat → E, (∀ i, op i = .error (ef i)) →
      (execute o op rand).attempts = o.max_retries + 1 ∧
      (execute o op rand).result = .error (ef o.max_retries)) ∧
    (∀ i v, i ≤ o.max_retries → (∀ j, j < i → ∃ e, op j = .error e) → op i = .ok v →
      (execute o op rand).result = .ok v ∧ (execute o op rand).attempts = i + 1) := by
  constructor
  · intro ef hfail
    have hreach := executeFrom_reach o op rand ef o.max_retries 0 o.max_retries le_rfl
      (by intro k _; exact hfail (0 + k))
      (by intro k _; exact hsr (ef (0 + k)) (0 + k))
    have hat : (execute o op rand).attempts
        = o.max_retries + (executeFrom o op rand (0 + o.max_retries)
            (o.max_retries - o.max_retries)).attempts := by
      rw [execute, hreach]
    have hres : (execute o op rand).result
        = (executeFrom o op rand (0 + o.max_retries)
            (o.max_retries - o.max_retries)).result := by
      rw [execute, hreach]
    rw [Nat.zero_add, Nat.sub_self] at hat hres
    constructor
    · rw [hat]
      simp [executeFrom]
    · rw [hres]
      simp [executeFrom, hfail o.max_retries]
  · intro i v hle hfail hok
    have h := executeFrom_success o op rand i 0 o.max_retries v hle
      (by intro j hj
          obtain ⟨e, he⟩ := hfail j hj
          refine ⟨e, ?_, ?_⟩
          · rw [Nat.zero_add]; exact he
          · rw [Nat.zero_add]; exact hsr e j)
      (by rw [Nat.zero_add]; exact hok)
    exact h

/-- Claim C1 (amended), witness at maxRetries = 2 with the default predicate: the
always-failing operation runs 3 times and its failure is propagated, and an
operation succeeding on attempt 1 returns 7 after exactly 2 attempts. -/
theorem execute_exhausts_and_returns_first_success_witness :
    ((execute optsAlways2 failUU randZero).attempts = 3 ∧
      (execute optsAlways2 failUU randZero).result = .error ()) ∧
    ((execute optsAlways2 okAt1 randZero).result = .ok 7 ∧
      (execute optsAlways2 okAt1 randZero).attempts = 2) := by
  constructor
  · exact (execute_exhausts_and_returns_first_success optsAlways2 failUU randZero
      (fun _ _ => rfl)).1 (fun _ => ()) (fun _ => rfl)
  · exact (execute_exhausts_and_returns_first_success optsAlways2 okAt1 randZero
      (fun _ _ => rfl)).2 1 7 (by decide)
      (by intro j hj
          have hj0 : j = 0 := by omega
          exact ⟨(), by rw [hj0]; rfl⟩)
      rfl

/-- Claim C4: after a failure on attempt i reached through approved failures, if
i < maxRetries the loop consults should_retry(error, i); the first False propagates
that failure at once, with i + 1 total attempts and no delay after attempt i; at
i = maxRetries the failure is propagated with maxRetries + 1 attempts and without
any consultation at index maxRetries; and the unsupplied predicate defaults to
always-retry. -/
theorem execute_should_retry_protocol {E T : Type} (o : RetryOptions E)
    (op : Nat → Except E T) (rand : Nat → ℚ) (i : Nat) (ef : Nat → E) (e : E)
    (hfail : ∀ k, k < i → op k = .error (ef k))
    (happ : ∀ k, k < i → o.should_retry (ef k) k = true)
    (he : op i = .error e) :
    (i < o.max_retries → (e, i) ∈ (execute o op rand).consulted) ∧
    (i < o.max_retries → o.should_retry e i = false →
      (execute o op rand).result = .error e ∧
      (execute o op rand).attempts = i + 1 ∧
      (execute o op rand).delays.length = i) ∧
    (i = o.max_retries →
      (execute o op rand).result = .error e ∧
      (execute o op rand).attempts = o.max_retries + 1 ∧
      ∀ e', (e', o.max_retries) ∉ (execute o op rand).consulted) ∧
    (∀ (e' : E) (k : Nat), (({ } : RetryOptions E)).should_retry e' k = true) := by
  refine ⟨?_, ?_, ?_, fun _ _ => rfl⟩
  · intro hlt
    have hreach := executeFrom_reach o op rand ef i 0 o.max_retries (le_of_lt hlt)
      (by intro k hk; rw [Nat.zero_add]; exact hfail k hk)
      (by intro k hk; rw [Nat.zero_add]; exact happ k hk)
    have hcons : (execute o op rand).consulted
        = prefixConsults ef 0 i
          ++ (executeFrom o op rand (0 + i) (o.max_retries - i)).consulted := by
      rw [execute, hreach]
    obtain ⟨m, hm⟩ : ∃ m, o.max_retries - i = m + 1 := ⟨o.max_retries - i - 1, by omega⟩
    rw [hcons, Nat.zero_add, hm]
    refine List.mem_append_right _ ?_
    simp only [executeFrom, he]
    by_cases hb : o.should_retry e i = true
    · rw [if_pos hb]
      exact List.mem_cons_self _ _
    · rw [if_neg hb]
      exact List.mem_singleton.mpr rfl
  · intro hlt hno
    have hreach := executeFrom_reach o op rand ef i 0 o.max_retries (le_of_lt hlt)
      (by intro k hk; rw [Nat.zero_add]; exact hfail k hk)
      (by intro k hk; rw [Nat.zero_add]; exact happ k hk)
    obtain ⟨m, hm⟩ : ∃ m, o.max_retries - i = m + 1 := ⟨o.max_retries - i - 1, by omega⟩
    have htail : executeFrom o op rand i (m + 1) =
        { result := .error e, attempts := 1, delays := [], consulted := [(e, i)] } := by
      simp [executeFrom, he, hno]
    rw [Nat.zero_add, hm, htail] at hreach
    have hres : (execute o op rand).result = .error e := by rw [execute, hreach]
    have hat : (execute o op rand).attempts = i + 1 := by rw [execute, hreach]
    have hdel : (execute o op rand).delays = prefixDelays o rand 0 i ++ [] := by
      rw [execute, hreach]
    refine ⟨hres, hat, ?_⟩
    rw [hdel, List.append_nil, prefixDelays_length]
  · intro heq
    have hreach := executeFrom_reach o op rand ef i 0 o.max_retries (le_of_eq heq)
      (by intro k hk; rw [Nat.zero_add]; exact hfail k hk)
      (by intro k hk; rw [Nat.zero_add]; exact happ k hk)
    have he' : op o.max_retries = .error e := by rw [← heq]; exact he
    have htail : executeFrom o op rand i (o.max_retries - i) =
        { result := .error e, attempts := 1, delays := [], consulted := [] } := by
      rw [heq, Nat.sub_self, executeFrom, he']
    rw [Nat.zero_add, htail] at hreach
    have hres : (execute o op rand).result = .error e := by rw [execute, hreach]
    have hat : (execute o op rand).attempts = i + 1 := by rw [execute, hreach]
    have hcons : (execute o op rand).consulted = prefixConsults ef 0 i ++ [] := by
      rw [execute, hreach]
    refine ⟨hres, by rw [hat, heq], ?_⟩
    intro e' hmem
    rw [hcons, List.append_nil] at hmem
    have := prefixConsults_index_lt ef i 0 (e', o.max_retries) hmem
    omega

/-- Claim C4, witness: with maxRetries = 2 and a predicate approving only after
attempt 0, a constant failure is consulted at attempt 1, stops there with 2
attempts, one delay, and the failure propagated. -/
theorem execute_should_retry_protocol_witness :
    ((), 1) ∈ (execute optsConsult failUU randZero).consulted ∧
    (execute optsConsult failUU randZero).result = .error () ∧
    (execute optsConsult failUU randZero).attempts = 2 ∧
    (execute optsConsult failUU randZero).delays.length = 1 := by
  have h := execute_should_retry_protocol optsConsult failUU randZero 1
    (fun _ => ()) ()
    (fun k _ => rfl)
    (by intro k hk
        have hk0 : k = 0 := by omega
        rw [hk0]; rfl)
    rfl
  refine ⟨h.1 (by decide), ?_, ?_, ?_⟩
  · exact (h.2.1 (by decide) rfl).1
  · exact (h.2.1 (by decide) rfl).2.1
  · exact (h.2.1 (by decide) rfl).2.2

/-- Claim C5, counterexample: with initialDelay 3 ms, multiplier 1.5, jitter draw 0,
the delay recorded after attempt 1 is int(4.5) = 4 ms, which is not equal to
min(initialDelay × multiplier^1 × (1 + jitterFactor × r), maxDelay) for any
r in [0, 1), and which lies below the claimed lower bound
initialDelay × multiplier^1 = 4.5. -/
theorem calculate_delay_truncation_escapes_claimed_interval :
    (execute optsTrunc failUU randZero).delays.get? 1 = some 4 ∧
    (∀ r : ℚ, 0 ≤ r → r < 1 →
      ¬ ((4 : ℚ) = min ((3 : ℚ) * (3 / 2) ^ 1 * (1 + (1 / 10) * r)) 30000)) ∧
    ¬ ((3 : ℚ) * (3 / 2) ^ 1 ≤ (4 : ℚ)) := by
  refine ⟨?_, ?_, by norm_num⟩
  · have hlist : (execute optsTrunc failUU randZero).delays
        = [calculate_delay optsTrunc 0 0, calculate_delay optsTrunc 1 0] := by
      simp [execute, executeFrom, optsTrunc, failUU, randZero]
    have hval : calculate_delay optsTrunc 1 0 = 4 := by
      have hfl : ⌊(9 / 2 : ℚ)⌋ = 4 := by
        rw [Int.floor_eq_iff]
        norm_num
      simp only [calculate_delay, optsTrunc, pyInt]
      norm_num [hfl]
    rw [hlist]
    simp [hval]
  intro r hr0 hr1 heq
  have hle : (3 : ℚ) * (3 / 2) ^ 1 * (1 + (1 / 10) * r) ≤ 30000 := by nlinarith
  rw [min_eq_left hle] at heq
  nlinarith

/-- Claim C5 (amended): every delay the loop sleeps equals
min(int(initialDelay × multiplier^i × (1 + jitterFactor × r)), maxDelay) for the
random draw r of that attempt — int() truncating — and therefore lies between
min(⌊initialDelay × multiplier^i⌋, maxDelay) and maxDelay inclusive. -/
theorem execute_delay_formula_and_bounds {E T : Type} (o : RetryOptions E)
    (op : Nat → Except E T) (rand : Nat → ℚ) (i : Nat) (d : Int)
    (hinit : 0 ≤ o.initial_delay_ms) (hmult : 0 ≤ o.backoff_multiplier)
    (hjf : 0 ≤ o.jitter_factor) (hrand : ∀ k, 0 ≤ rand k ∧ rand k < 1)
    (hd : (execute o op rand).delays.get? i = some d) :
    d = calculate_delay o i (rand i) ∧
    d = min (pyInt ((o.initial_delay_ms : ℚ) * o.backoff_multiplier ^ i
          * (1 + o.jitter_factor * rand i))) o.max_delay_ms ∧
    min ⌊(o.initial_delay_ms : ℚ) * o.backoff_multiplier ^ i⌋ o.max_delay_ms ≤ d ∧
    d ≤ o.max_delay_ms := by
  have hform := executeFrom_delays_get o op rand o.max_retries 0 i d hd
  rw [Nat.zero_add] at hform
  have hbase : (0 : ℚ) ≤ (o.initial_delay_ms : ℚ) * o.backoff_multiplier ^ i := by
    have h1 : (0 : ℚ) ≤ (o.initial_delay_ms : ℚ) := by exact_mod_cast hinit
    exact mul_nonneg h1 (pow_nonneg hmult i)
  have hring : (o.initial_delay_ms : ℚ) * o.backoff_multiplier ^ i
      + (o.initial_delay_ms : ℚ) * o.backoff_multiplier ^ i * o.jitter_factor * rand i
      = (o.initial_delay_ms : ℚ) * o.backoff_multiplier ^ i
          * (1 + o.jitter_factor * rand i) := by ring
  have hcalc : calculate_delay o i (rand i)
      = min (pyInt ((o.initial_delay_ms : ℚ) * o.backoff_multiplier ^ i
          * (1 + o.jitter_factor * rand i))) o.max_delay_ms := by
    simp only [calculate_delay]
    rw [hring]
  have hq0 : (0 : ℚ) ≤ (o.initial_delay_ms : ℚ) * o.backoff_multiplier ^ i
      * (1 + o.jitter_factor * rand i) := by
    have hr0 := (hrand i).1
    have hfac : (0 : ℚ) ≤ 1 + o.jitter_factor * rand i := by
      nlinarith [mul_nonneg hjf hr0]
    exact mul_nonneg hbase hfac
  have hbaseq : (o.initial_delay_ms : ℚ) * o.backoff_multiplier ^ i
      ≤ (o.initial_delay_ms : ℚ) * o.backoff_multiplier ^ i
          * (1 + o.jitter_factor * rand i) := by
    have hr0 := (hrand i).1
    nlinarith [mul_nonneg (mul_nonneg hbase hjf) hr0]
  have hpy : pyInt ((o.initial_delay_ms : ℚ) * o.backoff_multiplier ^ i
      * (1 + o.jitter_factor * rand i))
      = ⌊(o.initial_delay_ms : ℚ) * o.backoff_multiplier ^ i
          * (1 + o.jitter_factor * rand i)⌋ := by
    rw [pyInt, if_pos hq0]
  refine ⟨hform, by rw [hform, hcalc], ?_, ?_⟩
  · rw [hform, hcalc, hpy]
    exact min_le_min (Int.floor_le_floor hbaseq) le_rfl
  · rw [hform, hcalc]
    exact min_le_right _ _

/-- Claim C5 (amended), witness: with the default options and a zero jitter draw,
the delay after attempt 0 is 1000 ms and satisfies the formula and bounds. -/
theorem execute_delay_formula_and_bounds_witness :
    (1000 : Int) = calculate_delay optsAlways2 0 (randZero 0) ∧
    (1000 : Int) = min (pyInt ((optsAlways2.initial_delay_ms : ℚ)
        * optsAlways2.backoff_multiplier ^ 0
        * (1 + optsAlways2.jitter_factor * randZero 0))) optsAlways2.max_delay_ms ∧
    min ⌊(optsAlways2.initial_delay_ms : ℚ) * optsAlways2.backoff_multiplier ^ 0⌋
        optsAlways2.max_delay_ms ≤ (1000 : Int) ∧
    (1000 : Int) ≤ optsAlways2.max_delay_ms := by
  have hget : (execute optsAlways2 failUU randZero).delays.get? 0 = some 1000 := by
    have hlist : (execute optsAlways2 failUU randZero).delays
        = [calculate_delay optsAlways2 0 (randZero 0),
           calculate_delay optsAlways2 1 (randZero 1)] := by
      simp [execute, executeFrom, optsAlways2, failUU]
    have hval : calculate_delay optsAlways2 0 (randZero 0) = 1000 := by
      have hfl : ⌊(1000 : ℚ)⌋ = 1000 := by
        rw [Int.floor_eq_iff]
        norm_num
      simp only [calculate_delay, optsAlways2, pyInt, randZero]
      norm_num [hfl]
    rw [hlist, hval]
    rfl
  exact execute_delay_formula_and_bounds optsAlways2 failUU randZero 0 1000
    (by norm_num [optsAlways2]) (by norm_num [optsAlways2]) (by norm_num [optsAlways2])
    (fun k => ⟨by norm_num [randZero], by norm_num [randZero]⟩) hget

/-- Claim C8, counterexample: connect_rabbitmq retries an authentication-refused
dial on every attempt, performing all 30 default attempts rather than propagating
the failure immediately after the first. -/
theorem connect_retries_auth_refused_thirty_times :
    (connect_rabbitmq authDial 30 2).attempts = 30 ∧ (30 : Nat) ≠ 1 :=
  ⟨rfl, by decide⟩

/-- Claim C8 (amended): connect_rabbitmq is a plain loop with no retry predicate
and no RetryPolicy: every dial failure, authentication-refused ones included, is
retried uniformly, up to max_retries total attempts (source default 30) with the
fixed retry_delay (source default 2 s) slept between consecutive attempts, and the
failure of the final attempt is the one propagated. -/
theorem connect_uniform_retry_loop (dial : Nat → Except String Unit)
    (max_retries retry_delay : Nat) (ef : Nat → String)
    (hfail : ∀ i, dial i = .error (ef i)) (hmr : 1 ≤ max_retries) :
    (connect_rabbitmq dial max_retries retry_delay).attempts = max_retries ∧
    (connect_rabbitmq dial max_retries retry_delay).result
      = .error (ef (max_retries - 1)) ∧
    (connect_rabbitmq dial max_retries retry_delay).delays
      = List.replicate (max_retries - 1) retry_delay := by
  obtain ⟨h1, h2, h3⟩ := connectFrom_fail dial retry_delay ef hfail max_retries 0 hmr
  rw [Nat.zero_add] at h1
  exact ⟨h2, h1, h3⟩

/-- Claim C8 (amended), witness: three attempts with a plain connection error give
3 attempts, the last error propagated, and two 2-second sleeps. -/
theorem connect_uniform_retry_loop_witness :
    (connect_rabbitmq plainDial 3 2).attempts = 3 ∧
    (connect_rabbitmq plainDial 3 2).result = .error "connection refused" ∧
    (connect_rabbitmq plainDial 3 2).delays = List.replicate 2 2 :=
  connect_uniform_retry_loop plainDial 3 2 (fun _ => "connection refused")
    (fun _ => rfl) (by decide)

/-- Claim C3: parse yields the same job (c, p) for the flat, enveloped and indexed
shapes, and the shapes are tried in that order — a payload matching shape 1 parses
as shape 1, and a payload not matching shape 1 but matching shape 2 parses as
shape 2, so a payload matching more than one shape parses as the earliest. -/
theorem parse_shapes_agree_and_prioritized (c p : Json) (j : Json) :
    parse_campaign_message (.jsonOf (.obj [("campaignId", c), ("prompt", p)])) = .ok (c, p) ∧
    parse_campaign_message (.jsonOf (.obj [("data", .obj [("campaignId", c), ("prompt", p)])]))
      = .ok (c, p) ∧
    parse_campaign_message (.jsonOf (.obj [("0", .obj [("campaignId", c), ("prompt", p)])]))
      = .ok (c, p) ∧
    (∀ r, specShape1 j = some r → parseLoadedMessage j = .ok r) ∧
    (∀ r, specShape1 j = none → specShape2 j = some r → parseLoadedMessage j = .ok r) := by
  refine ⟨?_, ?_, ?_, ?_, ?_⟩
  · simp [parse_campaign_message, json_loads, parseLoadedMessage, Json.isDict, Json.hasKey,
      Json.get?, Json.item, dictFind, Except.instMonad, Except.bind, Bind.bind]
  · simp [parse_campaign_message, json_loads, parseLoadedMessage, Json.isDict, Json.hasKey,
      Json.get?, Json.item, dictFind, Except.instMonad, Except.bind, Bind.bind]
  · simp [parse_campaign_message, json_loads, parseLoadedMessage, Json.isDict, Json.isList,
      Json.hasKey, Json.get?, Json.item, dictFind, Except.instMonad, Except.bind, Bind.bind]
  · intro r h
    match j with
    | .null | .bool _ | .num _ | .str _ | .arr _ => simp [specShape1, Json.get?] at h
    | .obj fs =>
      rcases hc : dictFind fs "campaignId" with _ | c0 <;>
        rcases hpr : dictFind fs "prompt" with _ | p0 <;>
          simp [specShape1, Json.get?, hc, hpr] at h
      simp [parseLoadedMessage, Json.isDict, Json.hasKey, Json.get?, Json.item, hc, hpr, ← h,
        Except.instMonad, Except.bind, Bind.bind]
  · intro r h1 h2
    match j with
    | .null | .bool _ | .num _ | .str _ | .arr _ => simp [specShape2, Json.get?] at h2
    | .obj fs =>
      rcases hd : dictFind fs "data" with _ | d
      · simp [specShape2, Json.get?, hd] at h2
      · match d with
        | .null | .bool _ | .num _ | .str _ | .arr _ =>
          simp [specShape2, Json.get?, hd, Json.isDict] at h2
        | .obj ds =>
          rcases hc : dictFind ds "campaignId" with _ | c0 <;>
            rcases hpr : dictFind ds "prompt" with _ | p0 <;>
              simp [specShape2, specShape1, Json.get?, hd, Json.isDict, hc, hpr] at h2
          have hmiss : dictFind fs "campaignId" = none ∨ dictFind fs "prompt" = none := by
            rcases hc2 : dictFind fs "campaignId" with _ | c1
            · exact Or.inl rfl
            · rcases hp2 : dictFind fs "prompt" with _ | p1
              · exact Or.inr rfl
              · simp [specShape1, Json.get?, hc2, hp2] at h1
          rcases hmiss with hm | hm <;>
            simp [parseLoadedMessage, Json.isDict, Json.hasKey, Json.get?, Json.item,
              hd, hm, hc, hpr, ← h2, Except.instMonad, Except.bind, Bind.bind]

/-- Claim C3, witness: a payload carrying both the flat and the enveloped shape
parses as the flat shape, and a payload carrying only the enveloped shape parses
as the enveloped one. -/
theorem parse_shapes_agree_and_prioritized_witness :
    parseLoadedMessage multiShapeBody = .ok (.str "a", .str "b") ∧
    parseLoadedMessage envShapeBody = .ok (.str "x", .str "y") := by
  constructor
  · exact (parse_shapes_agree_and_prioritized (.str "a") (.str "b") multiShapeBody).2.2.2.1
      (.str "a", .str "b") rfl
  · exact (parse_shapes_agree_and_prioritized (.str "a") (.str "b") envShapeBody).2.2.2.2
      (.str "x", .str "y") rfl rfl

/-- Claim C6, counterexample: the payload having a data key holding an object that
lacks campaignId matches no recognized shape in the claim's sense, yet parse fails
with a KeyError, not with the MalformedMessage ValueError. -/
theorem parse_data_missing_key_raises_keyerror :
    parse_campaign_message (.jsonOf (.obj [("data", .obj [])]))
      = .error (.keyError "campaignId") ∧
    isMalformed (parse_campaign_message (.jsonOf (.obj [("data", .obj [])]))) = false :=
  ⟨rfl, rfl⟩

/-- Claim C6 (amended): every payload matching none of the three shape guards —
any non-object top level, and any object having none of: both campaignId and
prompt keys, a data key holding an object, a "0" key — fails with the
MalformedMessage ValueError; but an object whose data value is an object lacking
campaignId passes the second guard and fails with a missing-key KeyError instead. -/
theorem parse_guard_mismatch_malformed (j : Json) (d : List (String × Json)) :
    ((j.hasKey "campaignId" && j.hasKey "prompt") = false →
      (j.get? "data").elim false Json.isDict = false →
      j.hasKey "0" = false →
      isMalformed (parseLoadedMessage j) = true) ∧
    ((j.hasKey "campaignId" && j.hasKey "prompt") = false →
      j.get? "data" = some (.obj d) →
      dictFind d "campaignId" = none →
      parseLoadedMessage j = .error (.keyError "campaignId")) := by
  constructor
  · intro h1 h2 h3
    match j with
    | .null | .bool _ | .num _ | .str _ | .arr _ =>
      simp [parseLoadedMessage, Json.isDict, isMalformed]
    | .obj fs =>
      simp [parseLoadedMessage, Json.isDict, Json.isList, h1, h2, h3, isMalformed]
  · intro h1 hdata hmiss
    match j with
    | .null | .bool _ | .num _ | .str _ | .arr _ => simp [Json.get?] at hdata
    | .obj fs =>
      have hd : dictFind fs "data" = some (.obj d) := hdata
      rcases hc : dictFind fs "campaignId" with _ | c0
      · simp [parseLoadedMessage, Json.isDict, Json.hasKey, Json.get?, hc, hd, Json.item,
          hmiss, Except.instMonad, Except.bind, Bind.bind]
      · rcases hpr : dictFind fs "prompt" with _ | p0
        · simp [parseLoadedMessage, Json.isDict, Json.hasKey, Json.get?, hc, hpr, hd, Json.item,
            hmiss, Except.instMonad, Except.bind, Bind.bind]
        · exfalso
          simp [Json.hasKey, Json.get?, hc, hpr] at h1

/-- Claim C6 (amended), witness: a non-object top level fails as MalformedMessage,
and an object whose data object lacks campaignId fails as a KeyError. -/
theorem parse_guard_mismatch_malformed_witness :
    isMalformed (parseLoadedMessage (.num 5)) = true ∧
    parseLoadedMessage (.obj [("data", .obj [("x", .null)])])
      = .error (.keyError "campaignId") := by
  constructor
  · exact (parse_guard_mismatch_malformed (.num 5) []).1 rfl rfl rfl
  · exact (parse_guard_mismatch_malformed (.obj [("data", .obj [("x", .null)])])
      [("x", .null)]).2 rfl rfl rfl

/-- Claim C7: a top-level true JSON array whose first element holds campaignId and
prompt is rejected with the "Expected dict" MalformedMessage, because the
isinstance(data, list) branch of the parser sits inside the isinstance(data, dict)
test and is unreachable; the claim (and the in-code array-format comment) say it
should parse as shape 3. -/
theorem parse_true_array_rejected_expected_dict :
    parse_campaign_message (.jsonOf (.arr [.obj [("campaignId", .str "c"), ("prompt", .str "p")]]))
      = .error (.valueError "Expected dict") := rfl

/-- Claim C2, counterexample: a message body that is not valid UTF-8 makes the
handler raise UnicodeDecodeError out of its own except branch (the logging line
decodes the body a second time), so a per-job error does escape the handler; the
processing guard then rejects rather than acknowledges. -/
theorem handler_raises_on_invalid_utf8 :
    (process_campaign_message .invalidUtf8 genOK pubOK).raised = some .unicodeDecodeError ∧
    (process_campaign_message .invalidUtf8 genOK pubOK).outcome = .rejected :=
  ⟨rfl, rfl⟩

/-- Claim C2 (amended): the handler acknowledges exactly when it returns normally
and explicitly rejects when an exception escapes; for every message body that
decodes as UTF-8 — invalid JSON included — the handler returns normally and
acknowledges, every parse failure is converted into exactly one error-envelope
publish attempt carrying str(e) and the best-effort campaignId, every delegation
failure is converted by delegate_to_generator into the error envelope that becomes
the publish attempt, and every failure of the first publish is converted into a
second error-envelope publish attempt; only a body that is not valid UTF-8 raises
out of the handler. -/
theorem handler_ack_reject_and_containment (raw : RawBody)
    (gen : Json → Json → Except String Json) (pub : Nat → Except String Unit) :
    ((process_campaign_message raw gen pub).raised = none ↔
      (process_campaign_message raw gen pub).outcome = .acked) ∧
    (raw.decodes = true →
      (process_campaign_message raw gen pub).raised = none ∧
      (process_campaign_message raw gen pub).outcome = .acked ∧
      (∀ e, parse_campaign_message raw = .error e →
        (process_campaign_message raw gen pub).attempted
          = [{ campaignId := extract_campaign_id_from_error raw, generatedText := .str "",
               imagePath := .str "", error := some e.toMessage }]) ∧
      (∀ c p, parse_campaign_message raw = .ok (c, p) →
        (∀ err, gen c p = .error err →
          (delegate_to_generator gen c p).error
            = some ("Generation service error: " ++ err)) ∧
        (pub 0 = .ok () →
          (process_campaign_message raw gen pub).attempted
            = [delegate_to_generator gen c p]) ∧
        (∀ m, pub 0 = .error m →
          (process_campaign_message raw gen pub).attempted
            = [delegate_to_generator gen c p,
               { campaignId := extract_campaign_id_from_error raw, generatedText := .str "",
                 imagePath := .str "", error := some m }]))) := by
  match raw with
  | .invalidUtf8 =>
    constructor
    · simp [process_campaign_message]
    · intro h; simp [RawBody.decodes] at h
  | .notJson =>
    have hp : parse_campaign_message .notJson = .error .jsonDecodeError := rfl
    rcases h0 : pub 0 with m | u
    · constructor
      · simp [process_campaign_message, parse_campaign_message, json_loads, h0,
          Except.instMonad, Except.bind, Bind.bind]
      · intro _
        refine ⟨?_, ?_, ?_, ?_⟩
        · simp [process_campaign_message, parse_campaign_message, json_loads, h0,
            Except.instMonad, Except.bind, Bind.bind]
        · simp [process_campaign_message, parse_campaign_message, json_loads, h0,
            Except.instMonad, Except.bind, Bind.bind]
        · intro e he
          rw [hp] at he
          simp only [Except.error.injEq] at he
          subst he
          simp [process_campaign_message, parse_campaign_message, json_loads, h0,
            Except.instMonad, Except.bind, Bind.bind]
        · intro c p hcp
          rw [hp] at hcp
          simp at hcp
    · constructor
      · simp [process_campaign_message, parse_campaign_message, json_loads, h0,
          Except.instMonad, Except.bind, Bind.bind]
      · intro _
        refine ⟨?_, ?_, ?_, ?_⟩
        · simp [process_campaign_message, parse_campaign_message, json_loads, h0,
            Except.instMonad, Except.bind, Bind.bind]
        · simp [process_campaign_message, parse_campaign_message, json_loads, h0,
            Except.instMonad, Except.bind, Bind.bind]
        · intro e he
          rw [hp] at he
          simp only [Except.error.injEq] at he
          subst he
          simp [process_campaign_message, parse_campaign_message, json_loads, h0,
            Except.instMonad, Except.bind, Bind.bind]
        · intro c p hcp
          rw [hp] at hcp
          simp at hcp
  | .jsonOf j =>
    have hp : parse_campaign_message (.jsonOf j) = parseLoadedMessage j := rfl
    rcases hparse : parseLoadedMessage j with e | pr
    · rcases h0 : pub 0 with m | u
      · constructor
        · simp [process_campaign_message, hp, hparse, h0]
        · intro _
          refine ⟨?_, ?_, ?_, ?_⟩
          · simp [process_campaign_message, hp, hparse, h0]
          · simp [process_campaign_message, hp, hparse, h0]
          · intro e' he'
            rw [hp, hparse] at he'
            simp only [Except.error.injEq] at he'
            subst he'
            simp [process_campaign_message, hp, hparse, h0]
          · intro c' p' hcp
            rw [hp, hparse] at hcp
            simp at hcp
      · constructor
        · simp [process_campaign_message, hp, hparse, h0]
        · intro _
          refine ⟨?_, ?_, ?_, ?_⟩
          · simp [process_campaign_message, hp, hparse, h0]
          · simp [process_campaign_message, hp, hparse, h0]
          · intro e' he'
            rw [hp, hparse] at he'
            simp only [Except.error.injEq] at he'
            subst he'
            simp [process_campaign_message, hp, hparse, h0]
          · intro c' p' hcp
            rw [hp, hparse] at hcp
            simp at hcp
    · obtain ⟨c, p⟩ := pr
      have hdel : ∀ err, gen c p = .error err →
          (delegate_to_generator gen c p).error
            = some ("Generation service error: " ++ err) := by
        intro err herr
        simp [delegate_to_generator, herr, Except.instMonad, Except.bind, Bind.bind]
      rcases h0 : pub 0 with m | u
      · rcases h1 : pub 1 with m2 | u2
        · constructor
          · simp [process_campaign_message, hp, hparse, h0, h1]
          · intro _
            refine ⟨?_, ?_, ?_, ?_⟩
            · simp [process_campaign_message, hp, hparse, h0, h1]
            · simp [process_campaign_message, hp, hparse, h0, h1]
            · intro e' he'
              rw [hp, hparse] at he'
              simp at he'
            · intro c' p' hcp
              rw [hp, hparse] at hcp
              simp only [Except.ok.injEq, Prod.mk.injEq] at hcp
              obtain ⟨rfl, rfl⟩ := hcp
              refine ⟨hdel, ?_, ?_⟩
              · intro hok
                simp at hok
              · intro m' hm
                simp only [Except.error.injEq] at hm
                subst hm
                simp [process_campaign_message, hp, hparse, h0, h1]
        · constructor
          · simp [process_campaign_message, hp, hparse, h0, h1]
          · intro _
            refine ⟨?_, ?_, ?_, ?_⟩
            · simp [process_campaign_message, hp, hparse, h0, h1]
            · simp [process_campaign_message, hp, hparse, h0, h1]
            · intro e' he'
              rw [hp, hparse] at he'
              simp at he'
            · intro c' p' hcp
              rw [hp, hparse] at hcp
              simp only [Except.ok.injEq, Prod.mk.injEq] at hcp
              obtain ⟨rfl, rfl⟩ := hcp
              refine ⟨hdel, ?_, ?_⟩
              · intro hok
                simp at hok
              · intro m' hm
                simp only [Except.error.injEq] at hm
                subst hm
                simp [process_campaign_message, hp, hparse, h0, h1]
      · constructor
        · simp [process_campaign_message, hp, hparse, h0]
        · intro _
          refine ⟨?_, ?_, ?_, ?_⟩
          · simp [process_campaign_message, hp, hparse, h0]
          · simp [process_campaign_message, hp, hparse, h0]
          · intro e' he'
            rw [hp, hparse] at he'
            simp at he'
          · intro c' p' hcp
            rw [hp, hparse] at hcp
            simp only [Except.ok.injEq, Prod.mk.injEq] at hcp
            obtain ⟨rfl, rfl⟩ := hcp
            refine ⟨hdel, ?_, ?_⟩
            · intro _
              simp [process_campaign_message, hp, hparse, h0]
            · intro m' hm
              simp at hm

/-- Claim C2 (amended), witness: a body that decodes but is not valid JSON is
handled with no escaping exception, acknowledged, and its parse failure is
converted into exactly one error-envelope publish attempt; and a job whose
delegation fails yields precisely the delegation error envelope as its publish
attempt. -/
theorem handler_ack_reject_and_containment_witness :
    (process_campaign_message .notJson genOK pubOK).raised = none ∧
    (process_campaign_message .notJson genOK pubOK).outcome = .acked ∧
    (process_campaign_message .notJson genOK pubOK).attempted
      = [{ campaignId := extract_campaign_id_from_error .notJson, generatedText := .str "",
           imagePath := .str "", error := some PyErr.jsonDecodeError.toMessage }] ∧
    (process_campaign_message flatBody genFail pubOK).attempted
      = [delegate_to_generator genFail (.str "c1") (.str "p1")] ∧
    (delegate_to_generator genFail (.str "c1") (.str "p1")).error
      = some ("Generation service error: " ++ "downstream unavailable") := by
  have h1 := (handler_ack_reject_and_containment .notJson genOK pubOK).2 rfl
  have h2 := (handler_ack_reject_and_containment flatBody genFail pubOK).2 rfl
  have h2ok := h2.2.2.2 (.str "c1") (.str "p1") rfl
  exact ⟨h1.1, h1.2.1, h1.2.2.1 .jsonDecodeError rfl, h2ok.2.1 rfl,
    h2ok.1 "downstream unavailable" rfl⟩

/-- Claim C9, counterexample: for an accepted job whose generation succeeded but
whose every publish attempt fails, no envelope at all is produced (published),
while two envelopes were constructed; so "exactly one envelope is produced per
accepted job" is false as stated. -/
theorem handler_publishes_nothing_when_all_publishes_fail :
    parse_campaign_message flatBody = .ok (.str "c1", .str "p1") ∧
    (process_campaign_message flatBody genOK pubFail).published = [] ∧
    (process_campaign_message flatBody genOK pubFail).attempted.length = 2 :=
  ⟨rfl, rfl, rfl⟩

/-- Claim C9 (amended): every envelope the worker constructs satisfies: error set
implies generatedText and imagePath are the empty string; and per accepted
(decodable) job the worker attempts one envelope, plus a second error envelope
only if the first publish fails; exactly one envelope is produced when the first
publish succeeds, at most one in every case, and none when every publish fails. -/
theorem envelope_error_invariant_and_publish_count (raw : RawBody)
    (gen : Json → Json → Except String Json) (pub : Nat → Except String Unit) :
    (∀ env ∈ (process_campaign_message raw gen pub).attempted,
      env.error ≠ none →
        env.generatedText = .str "" ∧ env.imagePath = .str "") ∧
    (raw.decodes = true →
      1 ≤ (process_campaign_message raw gen pub).attempted.length ∧
      (process_campaign_message raw gen pub).attempted.length ≤ 2 ∧
      (process_campaign_message raw gen pub).published.length ≤ 1 ∧
      (pub 0 = .ok () → (process_campaign_message raw gen pub).published
        = (process_campaign_message raw gen pub).attempted.take 1)) := by
  match raw with
  | .invalidUtf8 =>
    constructor
    · intro env hmem
      simp [process_campaign_message] at hmem
    · intro h; simp [RawBody.decodes] at h
  | .notJson =>
    rcases h0 : pub 0 with m | u
    · constructor
      · intro env hmem
        simp [process_campaign_message, parse_campaign_message, json_loads, h0,
          Except.instMonad, Except.bind, Bind.bind] at hmem
        intro _
        rw [hmem]
        exact ⟨rfl, rfl⟩
      · intro _
        refine ⟨?_, ?_, ?_, ?_⟩ <;>
          simp [process_campaign_message, parse_campaign_message, json_loads, h0,
            Except.instMonad, Except.bind, Bind.bind]
    · constructor
      · intro env hmem
        simp [process_campaign_message, parse_campaign_message, json_loads, h0,
          Except.instMonad, Except.bind, Bind.bind] at hmem
        intro _
        rw [hmem]
        exact ⟨rfl, rfl⟩
      · intro _
        refine ⟨?_, ?_, ?_, ?_⟩ <;>
          simp [process_campaign_message, parse_campaign_message, json_loads, h0,
            Except.instMonad, Except.bind, Bind.bind]
  | .jsonOf j =>
    have hp : parse_campaign_message (.jsonOf j) = parseLoadedMessage j := rfl
    rcases hparse : parseLoadedMessage j with e | pr
    · rcases h0 : pub 0 with m | u
      · constructor
        · intro env hmem
          simp [process_campaign_message, hp, hparse, h0] at hmem
          intro _
          rw [hmem]
          exact ⟨rfl, rfl⟩
        · intro _
          refine ⟨?_, ?_, ?_, ?_⟩ <;> simp [process_campaign_message, hp, hparse, h0]
      · constructor
        · intro env hmem
          simp [process_campaign_message, hp, hparse, h0] at hmem
          intro _
          rw [hmem]
          exact ⟨rfl, rfl⟩
        · intro _
          refine ⟨?_, ?_, ?_, ?_⟩ <;> simp [process_campaign_message, hp, hparse, h0]
    · obtain ⟨c, p⟩ := pr
      rcases h0 : pub 0 with m | u
      · rcases h1 : pub 1 with m2 | u2
        all_goals constructor
        · intro env hmem
          simp [process_campaign_message, hp, hparse, h0, h1] at hmem
          rcases hmem with hm | hm
          · intro herr
            rw [hm] at herr ⊢
            exact delegate_envelope_invariant gen c p herr
          · intro _
            rw [hm]
            exact ⟨rfl, rfl⟩
        · intro _
          refine ⟨?_, ?_, ?_, ?_⟩ <;>
            simp [process_campaign_message, hp, hparse, h0, h1]
        · intro env hmem
          simp [process_campaign_message, hp, hparse, h0, h1] at hmem
          rcases hmem with hm | hm
          · intro herr
            rw [hm] at herr ⊢
            exact delegate_envelope_invariant gen c p herr
          · intro _
            rw [hm]
            exact ⟨rfl, rfl⟩
        · intro _
          refine ⟨?_, ?_, ?_, ?_⟩ <;>
            simp [process_campaign_message, hp, hparse, h0, h1]
      · constructor
        · intro env hmem
          simp [process_campaign_message, hp, hparse, h0] at hmem
          intro herr
          rw [hmem] at herr ⊢
          exact delegate_envelope_invariant gen c p herr
        · intro _
          refine ⟨?_, ?_, ?_, ?_⟩ <;> simp [process_campaign_message, hp, hparse, h0]

/-- Claim C9 (amended), witness: a job whose delegation fails produces one error
envelope with empty generatedText and imagePath, and when the publish succeeds the
worker publishes exactly that one envelope. -/
theorem envelope_error_invariant_and_publish_count_witness :
    ((delegate_to_generator genFail (.str "c1") (.str "p1")).generatedText = .str "" ∧
      (delegate_to_generator genFail (.str "c1") (.str "p1")).imagePath = .str "") ∧
    (1 ≤ (process_campaign_message flatBody genFail pubOK).attempted.length ∧
      (process_campaign_message flatBody genFail pubOK).attempted.length ≤ 2 ∧
      (process_campaign_message flatBody genFail pubOK).published.length ≤ 1 ∧
      (pubOK 0 = .ok () → (process_campaign_message flatBody genFail pubOK).published
        = (process_campaign_message flatBody genFail pubOK).attempted.take 1)) := by
  have h := envelope_error_invariant_and_publish_count flatBody genFail pubOK
  have hat : (process_campaign_message flatBody genFail pubOK).attempted
      = [delegate_to_generator genFail (.str "c1") (.str "p1")] := rfl
  have herr : (delegate_to_generator genFail (.str "c1") (.str "p1")).error
      = some ("Generation service error: " ++ "downstream unavailable") := rfl
  constructor
  · refine h.1 (delegate_to_generator genFail (.str "c1") (.str "p1")) ?_ ?_
    · rw [hat]
      exact List.mem_singleton.mpr rfl
    · rw [herr]
      exact fun hcon => Option.noConfusion hcon
  · exact h.2 rfl

/-- Claim C10: when a job parses as (c, p) and the first publish fails with
message m, the handler attempts exactly two envelopes: the delegation result, then
a second error envelope whose campaignId is re-extracted from the raw body by the
best-effort extractor and whose error is the publish failure's message; and the
message is acknowledged whether or not the second publish succeeds. -/
theorem handler_second_error_envelope_on_publish_failure (raw : RawBody)
    (gen : Json → Json → Except String Json) (pub : Nat → Except String Unit)
    (m : String) (c p : Json)
    (hparse : parse_campaign_message raw = .ok (c, p))
    (hpub : pub 0 = .error m) :
    (process_campaign_message raw gen pub).attempted
      = [delegate_to_generator gen c p,
         { campaignId := extract_campaign_id_from_error raw, generatedText := .str "",
           imagePath := .str "", error := some m }] ∧
    (process_campaign_message raw gen pub).outcome = .acked := by
  match raw with
  | .invalidUtf8 => simp [parse_campaign_message, json_loads, Except.instMonad, Except.bind,
      Bind.bind] at hparse
  | .notJson => simp [parse_campaign_message, json_loads, Except.instMonad, Except.bind,
      Bind.bind] at hparse
  | .jsonOf j =>
    have hp : parse_campaign_message (.jsonOf j) = parseLoadedMessage j := rfl
    rw [hp] at hparse
    rcases h1 : pub 1 with m2 | u2 <;>
      constructor <;> simp [process_campaign_message, hp, hparse, hpub, h1]

/-- Claim C10, witness: a flat job whose generation succeeds but whose first
publish fails is followed by a second, error envelope carrying the publish
failure's message, and the message is acknowledged. -/
theorem handler_second_error_envelope_on_publish_failure_witness :
    (process_campaign_message flatBody genOK pubFirstFails).attempted
      = [delegate_to_generator genOK (.str "c1") (.str "p1"),
         { campaignId := extract_campaign_id_from_error flatBody, generatedText := .str "",
           imagePath := .str "", error := some "publish failed" }] ∧
    (process_campaign_message flatBody genOK pubFirstFails).outcome = .acked :=
  handler_second_error_envelope_on_publish_failure flatBody genOK pubFirstFails
    "publish failed" (.str "c1") (.str "p1") rfl rfl

end CampaignManager
